import Mathlib

/-!
# Verification of the structured-tutorials step-execution engine

A shallow embedding of the engine implemented in
`structured_tutorials/runners/base.py`, `structured_tutorials/runners/local.py`
and `structured_tutorials/utils.py`, together with theorems settling the
claims of the specification against it.

Modelling conventions:
* Python dicts become association lists with Python `dict.update` semantics
  (`Dict.set` overwrites in place, appends new keys; lookup finds the first
  binding, which is unique by construction).
* Jinja2 templates become a two-constructor template type (literal text and
  variable interpolation); an undefined variable renders as the empty string,
  the Jinja2 default.
* The operating system is an oracle: subprocess execution is a function from
  the rendered command string to a process result, TCP connects and test-probe
  results are attempt-indexed functions ("worlds").
* Python exceptions become an explicit error value threaded next to the
  mutable runner state (the state survives an exception, as the Python runner
  object does).
-/

namespace StructuredTutorials

/-- Association-list map with Python `dict` semantics. -/
abbrev Dict (α : Type) := List (String × α)

namespace Dict

/-- `d[k] = v` in Python: overwrite the value in place if the key exists
(keys are unique in a Python dict, so replacing the first occurrence is
overwriting in place), otherwise append the new binding. -/
def set (m : Dict α) (k : String) (v : α) : Dict α :=
  match m with
  | [] => [(k, v)]
  | p :: rest => if p.1 == k then (k, v) :: rest else p :: set rest k v

/-- `d.update(other)` in Python: fold `set` over the overlay, later bindings
winning. -/
def update (m overlay : Dict α) : Dict α :=
  overlay.foldl (fun acc p => acc.set p.1 p.2) m

/-- Lookup (`d.get(k)` in Python). -/
def get? (m : Dict α) (k : String) : Option α :=
  (m.find? (fun p => p.1 == k)).map (fun p => p.2)

/-- Map a function over all values (a Python dict comprehension over items). -/
def mapVals (f : α → β) (m : Dict α) : Dict β :=
  m.map (fun p => (p.1, f p.2))

/-- `\x7bk: f(v) for k, v in m.items() if v is not None\x7d`. -/
def filterSomeMap (f : α → β) : Dict (Option α) → Dict β
  | [] => []
  | p :: rest =>
      match p.2 with
      | some v => (p.1, f v) :: filterSomeMap f rest
      | none => filterSomeMap f rest

end Dict

/-! ## Templates (Jinja2, as used through `RunnerBase.render`) -/

/-- One piece of a Jinja2 template: literal text or a `\x7b\x7b name \x7d\x7d`
variable interpolation. -/
inductive TItem
  | lit (s : String)
  | var (name : String)
deriving DecidableEq, Repr

/-- A template is a sequence of pieces. -/
abbrev Template := List TItem

/-- The source text of a template — what the Python code holds as the plain
(unrendered) string, e.g. in `command_config.command`. -/
def templateSource (t : Template) : String :=
  String.join (t.map fun
    | .lit s => s
    | .var n => "\x7b\x7b " ++ n ++ " \x7d\x7d")

/-- `RunnerBase.render`: render a template against the current context.
Jinja2 renders an undefined variable as the empty string. -/
def renderT (ctx : Dict String) (t : Template) : String :=
  String.join (t.map fun
    | .lit s => s
    | .var n => ((ctx.get? n).getD ""))

/-- Render every value of a map (the dict comprehensions in
`RunnerBase.__init__` and `RunnerBase.run_shell_command`). -/
def renderVals (ctx : Dict String) (m : Dict Template) : Dict String :=
  Dict.mapVals (renderT ctx) m

/-! ## Data model (from `structured_tutorials/models`, as consumed by the
runners) -/

/-- Result of a finished subprocess (`subprocess.CompletedProcess`). -/
structure ProcResult where
  returncode : Int
  stdout : String
  stderr : String
deriving DecidableEq, Repr

/-- `TestSpecificationMixin`: delay/retry/backoff configuration. `delay` and
`backoff_factor` are non-negative floats in the model; we embed them as
rationals. -/
structure TestSpec where
  delay : Rat
  retry : Nat
  backoff_factor : Rat
deriving DecidableEq, Repr

/-- A compiled regular expression is embedded as its `search` function: the
groupdict of the match, if any (`re.Pattern.search` + `match.groupdict`). -/
abbrev RegexFn := String → Option (Dict String)

/-- Output stream selector of `TestOutputModel`. -/
inductive OutStream
  | stdout
  | stderr
deriving DecidableEq, Repr

/-- The `TestCommandModel | TestPortModel | TestOutputModel` union consumed by
`LocalTutorialRunner.run_test`. -/
inductive TestModel
  | command (spec : TestSpec) (status_code : Int) (cmd : Template)
  | port (spec : TestSpec) (host : String) (port : Nat)
  | output (stream : OutStream) (regex : RegexFn)

/-- `CleanupCommandModel` (a command plus its `show_output`/`status_code`
base fields; the drain only uses `command` and `show_output`). -/
structure CleanupCommandModel where
  command : Template
  show_output : Bool := true
  status_code : Int := 0

/-- `CommandRuntimeConfigurationModel`: the `run:` section of a single
command, with the fields `LocalTutorialRunner.run_commands` reads. -/
structure CommandRuntimeConfigurationModel where
  status_code : Int := 0
  show_output : Bool := true
  skip : Bool := false
  update_context : Dict String := []
  cleanup : List CleanupCommandModel := []
  test : List TestModel := []
  chdir : Option String := none

/-- `CommandModel`: one command of a commands part. -/
structure CommandModel where
  command : Template
  run : CommandRuntimeConfigurationModel := {}

/-! ## Engine error values (`structured_tutorials/errors.py` plus the
plain `RuntimeError`/`AssertionError` raised by the runners) -/

/-- The exceptions the engine can raise while running parts. -/
inductive RunError
  | statusMismatch (message : String)      -- `RuntimeError` in `run_commands`
  | testExhausted (message : String)       -- `CommandTestError`
  | outputMismatch (message : String)      -- `CommandOutputTestError`
  | invalidAlternatives (message : String) -- `InvalidAlternativesSelectedError`
  | promptNotConfirmed (message : String)  -- `PromptNotConfirmedError`
  | assertionFailed (message : String)     -- `assert` in `run_alternative`
  | otherError (message : String)          -- other `RuntimeError`s
deriving DecidableEq, Repr

/-! ## `LocalTutorialRunner.run_test` -/

/-- Attempt-indexed outside world for one test: the return code produced by
running the test command on a given attempt, and whether a TCP connect
succeeds on a given attempt. -/
structure World where
  execTest : Nat → Int
  connectOk : Nat → Bool

/-- What one `run_test` invocation did: the sleeps it performed in order, how
many probe attempts it made, the context it left behind, and the error it
raised, if any. -/
structure TestRunResult where
  sleeps : List Rat
  attempts : Nat
  ctx : Dict String
  error : Option RunError
deriving Repr

/-- The `while tries <= test.retry` loop of `run_test`, entered with the
current value of `tries`; `ok t` tells whether the probe succeeds on attempt
`t`. Returns the sleeps performed, the number of probe attempts made, and
whether the loop returned early (probe success). -/
def testLoop (retry : Nat) (backoff : Rat) (ok : Nat → Bool) (tries : Nat) :
    List Rat × Nat × Bool :=
  if tries ≤ retry then
    let t := tries + 1
    if ok t then ([], 1, true)
    else
      let wait := backoff * 2 ^ (t - 1)
      let sleeps := if 0 < wait ∧ t ≤ retry then [wait] else []
      let rest := testLoop retry backoff ok t
      (sleeps ++ rest.1, rest.2.1 + 1, rest.2.2)
  else
    ([], 0, false)
termination_by retry + 1 - tries
decreasing_by omega

/-- The stream the output test reads (`proc.stderr` if `stream == "stderr"`
else `proc.stdout`). -/
def streamValue (stream : OutStream) (proc : ProcResult) : String :=
  match stream with
  | .stderr => proc.stderr
  | .stdout => proc.stdout

/-- `LocalTutorialRunner.run_test`: output tests are evaluated immediately
against the captured output; command/port tests wait `delay` once, then probe
with exponential backoff until success or `retry + 1` failed attempts. -/
def runTest (test : TestModel) (proc : ProcResult) (w : World)
    (ctx : Dict String) : TestRunResult :=
  match test with
  | .output stream regex =>
      let value := streamValue stream proc
      match regex value with
      | some groups =>
          { sleeps := [], attempts := 0, ctx := ctx.update groups, error := none }
      | none =>
          { sleeps := [], attempts := 0, ctx := ctx,
            error := some (.outputMismatch
              ("Process did not have the expected output: \x27" ++ value ++ "\x27")) }
  | .command spec status_code _cmd =>
      let initialSleeps := if 0 < spec.delay then [spec.delay] else []
      let ok : Nat → Bool := fun t => status_code = w.execTest t
      let r := testLoop spec.retry spec.backoff_factor ok 0
      { sleeps := initialSleeps ++ r.1, attempts := r.2.1, ctx := ctx,
        error := if r.2.2 then none else some (.testExhausted "Test did not pass") }
  | .port spec _host _port =>
      let initialSleeps := if 0 < spec.delay then [spec.delay] else []
      let r := testLoop spec.retry spec.backoff_factor w.connectOk 0
      { sleeps := initialSleeps ++ r.1, attempts := r.2.1, ctx := ctx,
        error := if r.2.2 then none else some (.testExhausted "Test did not pass") }

/-! ## Parts (`structured_tutorials/models/parts.py` shapes, as consumed by
the runners) -/

/-- `ConfigurationMixin` fields of the `run:` section of a part, read by
`run_parts` (`skip`, `update_context`). -/
structure PartRunConfiguration where
  skip : Bool := false
  update_context : Dict String := []

/-- `CommandsPartModel`: a part consisting of commands. -/
structure CommandsPartModel where
  commands : List CommandModel
  run : PartRunConfiguration := {}

/-- `FilePartModel`: a part writing one file. The filesystem behaviour of
`write_file` is outside the claims; the runner embedding records its
invocation as an event. -/
structure FilePartModel where
  contents : Option Template := none
  source : Option String := none
  destination : Template
  template : Bool := true
  run : PartRunConfiguration := {}

/-- `PromptModel`: an interactive prompt part. -/
structure PromptModel where
  prompt : Template
  response_enter : Bool := true  -- `type: enter` (vs `confirm`)
  default : Bool := true
  error : Template := [TItem.lit "State was not confirmed."]

/-- The nested parts an alternative may hold (`Commands` or `File`). -/
inductive NestedPartModel
  | commands (p : CommandsPartModel)
  | file (p : FilePartModel)

/-- `AlternativeModel` (modelled from the spec for the field shape, since
`models/parts.py` is not in the sources; the runners read exactly these
fields: a map from alternative key to a nested part, and a `required` flag). -/
structure AlternativeModel where
  alternatives : Dict NestedPartModel
  required : Bool := true
  run : PartRunConfiguration := {}

/-- The tagged union of tutorial parts dispatched by `run_parts`. -/
inductive PartModel
  | commands (p : CommandsPartModel)
  | file (p : FilePartModel)
  | prompt (p : PromptModel)
  | alternative (p : AlternativeModel)

/-! ## Run-level configuration (`RuntimeConfigurationModel` and the
alternative sub-configurations, with the fields `RunnerBase.__init__`
reads) -/

/-- Run configuration of one named alternative
(`tutorial.configuration.run.alternatives[name]`). -/
structure AlternativeConfiguration where
  environment : Dict (Option Template) := []
  context : Dict String := []
  required_executables : List String := []

/-- `tutorial.configuration.run`, restricted to the fields the runner
reads. -/
structure RuntimeConfiguration where
  context : Dict String := []
  clear_environment : Bool := false
  environment : Dict (Option Template) := []
  required_executables : List String := []
  alternatives : Dict AlternativeConfiguration := []
  temporary_directory : Bool := false
  git_export : Bool := false

/-- `tutorial.configuration` (shared `context` plus the run section). -/
structure TutorialConfiguration where
  context : Dict String := []
  run : RuntimeConfiguration := {}

/-- The tutorial as the runner sees it. -/
structure TutorialModel where
  parts : List PartModel
  configuration : TutorialConfiguration := {}

/-! ## Runner state and events -/

/-- One `run_shell_command` invocation: the rendered command line and the
effective process environment it ran with. A `wrote` event records a
`write_file` invocation. -/
inductive Event
  | ran (rendered : String) (env : Dict String)
  | wrote (destination : String)
deriving DecidableEq, Repr

/-- The mutable state of a `RunnerBase` during a run: the template context,
the composed base environment (`self.environment`, fixed after `__init__`),
the cleanup stack, the externally chosen alternative keys and the trace of
events so far. -/
structure ExecState where
  context : Dict String
  environment : Dict String
  cleanup : List CleanupCommandModel := []
  alternatives : List String := []
  trace : List Event := []

/-! ## `RunnerBase.__init__`: context and environment composition -/

/-- The environment dict built by `__init__` lines 67–83 before the
`None`-filter: inherited process environment (or empty under run-level
`clear_environment`), overlaid with `run.environment`, then with each chosen
alternative `environment` in selection order. Inherited values are plain
strings, i.e. literal templates. -/
def composedEnvironment (osEnviron : Dict String) (cfg : RuntimeConfiguration)
    (alternatives : List String) : Dict (Option Template) :=
  let base : Dict (Option Template) :=
    if cfg.clear_environment then []
    else osEnviron.mapVals (fun s => some [TItem.lit s])
  let withRun := base.update cfg.environment
  alternatives.foldl (fun acc a =>
    match cfg.alternatives.get? a with
    | some c => acc.update c.environment
    | none => acc) withRun

/-- `self.context` as computed by `__init__`: `configuration.context`,
updated with `configuration.run.context`, the constructor `context`
argument, and the `context` of each chosen alternative. -/
def initContext (cfg : TutorialConfiguration) (alternatives : List String)
    (context : Dict String) : Dict String :=
  let ctx := (cfg.context.update cfg.run.context).update context
  alternatives.foldl (fun acc a =>
    match cfg.run.alternatives.get? a with
    | some c => acc.update c.context
    | none => acc) ctx

/-- `self.environment` as computed by `__init__` line 94:
`\x7bk: self.render(v) for k, v in environment.items() if v is not None\x7d`. -/
def initEnvironment (osEnviron : Dict String) (cfg : RuntimeConfiguration)
    (alternatives : List String) (ctx : Dict String) : Dict String :=
  Dict.filterSomeMap (renderT ctx) (composedEnvironment osEnviron cfg alternatives)

/-- The initial runner state (the required-executable preflight, which can
only abort before anything ran, is not part of any claim and is omitted). -/
def initRunner (osEnviron : Dict String) (tutorial : TutorialModel)
    (alternatives : List String) (context : Dict String) : ExecState :=
  let ctx := initContext tutorial.configuration alternatives context
  { context := ctx,
    environment := initEnvironment osEnviron tutorial.configuration.run alternatives ctx,
    cleanup := [], alternatives := alternatives, trace := [] }

/-! ## `RunnerBase.run_shell_command`: environment composition and
execution -/

/-- The effective subprocess environment chosen by `run_shell_command`
lines 168–180: a truthy `environment` argument is value-rendered; with
`clear_environment` the rendered overrides are used alone; otherwise they
overlay `self.environment` (which is used unchanged when the overrides are
empty or absent). -/
def effectiveEnv (selfEnv ctx : Dict String) (environment : Option (Dict Template))
    (clear_environment : Bool) : Dict String :=
  let env' : Dict String :=
    match environment with
    | some e => if e.isEmpty then [] else renderVals ctx e
    | none => []
  if clear_environment then env'
  else if env'.isEmpty then selfEnv
  else selfEnv.update env'

/-- `run_shell_command` as the claims need it: render the command against the
current context, compose the environment, invoke the subprocess oracle and
record the event. Returns the process result and the state with the new
event. -/
def runShellCommand (exec : String → ProcResult) (st : ExecState)
    (command : Template) (environment : Option (Dict Template) := none)
    (clear_environment : Bool := false) : ProcResult × ExecState :=
  let env := effectiveEnv st.environment st.context environment clear_environment
  let rendered := renderT st.context command
  (exec rendered, { st with trace := st.trace ++ [.ran rendered env] })

/-! ## `LocalTutorialRunner.run_commands` -/

/-- Attempt-indexed worlds for the tests of the commands of a part:
`tw cmdIdx testIdx` is the world driving test number `testIdx` of command
number `cmdIdx`. -/
abbrev TestWorlds := Nat → Nat → World

/-- Run the `run.test` list of one finished command in order, stopping at the
first error (`run_commands` lines 107–109). -/
def runTests (proc : ProcResult) (tw : Nat → World) :
    List TestModel → Nat → Dict String → Dict String × Option RunError
  | [], _, ctx => (ctx, none)
  | test :: rest, idx, ctx =>
      let r := runTest test proc (tw idx) ctx
      match r.error with
      | some e => (r.ctx, some e)
      | none => runTests proc tw rest (idx + 1) r.ctx

/-- One iteration of the `run_commands` loop for a non-skipped command:
execute, prepend the cleanup list, check the status code, merge
`update_context`, then run the tests. (`os.chdir` for `run.chdir` is a
process-level side effect outside every claim and is not recorded.) -/
def runOneCommand (exec : String → ProcResult) (tw : Nat → World)
    (cmd : CommandModel) (st : ExecState) : ExecState × Option RunError :=
  let (proc, st1) := runShellCommand exec st cmd.command
  let st2 := { st1 with cleanup := cmd.run.cleanup ++ st1.cleanup }
  if proc.returncode ≠ cmd.run.status_code then
    (st2, some (.statusMismatch
      (templateSource cmd.command ++ " failed with return code "
        ++ toString proc.returncode ++ " (expected: "
        ++ toString cmd.run.status_code ++ ").")))
  else
    let st3 := { st2 with context := st2.context.update cmd.run.update_context }
    let (ctx', err) := runTests proc tw cmd.run.test 0 st3.context
    ({ st3 with context := ctx' }, err)

/-- `run_commands`: iterate the commands of the part in order, skipping
commands whose `run.skip` is set, stopping at the first error. -/
def runCommands (exec : String → ProcResult) (tw : TestWorlds) :
    List CommandModel → Nat → ExecState → ExecState × Option RunError
  | [], _, st => (st, none)
  | cmd :: rest, idx, st =>
      if cmd.run.skip then runCommands exec tw rest (idx + 1) st
      else
        match runOneCommand exec (tw idx) cmd st with
        | (st', some e) => (st', some e)
        | (st', none) => runCommands exec tw rest (idx + 1) st'

/-! ## Alternatives (`RunnerBase.validate_alternatives`,
`LocalTutorialRunner.run_alternative`) -/

/-- `set(chosen) & set(part.alternatives)`: the chosen keys that the part
declares (as a duplicate-free list; only its cardinality and, when it is a
singleton, its element are ever consumed). -/
def selectedAlternatives (chosen : List String) (part : AlternativeModel) :
    List String :=
  chosen.dedup.filter (fun k => (part.alternatives.get? k).isSome)

/-- Display of the selected-key set inside the
"More then one alternative selected" message. -/
def formatSelected (selected : List String) : String :=
  "\x7b" ++ String.intercalate ", " selected ++ "\x7d"

/-- The part-numbered loop of `validate_alternatives`
(`enumerate(self.tutorial.parts, start=1)`): the first invalid alternative
part produces the error. -/
def validateLoop (chosen : List String) : List PartModel → Nat → Option RunError
  | [], _ => none
  | part :: rest, n =>
      match part with
      | .alternative p =>
          let selected := selectedAlternatives chosen p
          if p.required ∧ selected.length = 0 then
            some (.invalidAlternatives
              ("Part " ++ toString n ++ ": No alternative selected."))
          else if selected.length ≠ 1 then
            some (.invalidAlternatives
              ("Part " ++ toString n ++ ": More then one alternative selected: "
                ++ formatSelected selected))
          else validateLoop chosen rest (n + 1)
      | _ => validateLoop chosen rest (n + 1)

/-- `RunnerBase.validate_alternatives`. -/
def validateAlternatives (parts : List PartModel) (chosen : List String) :
    Option RunError :=
  validateLoop chosen parts 1

/-- `LocalTutorialRunner.write_file`, reduced to what the claims consume: the
destination is rendered against the current context and the invocation is
recorded as an event (the filesystem checks and the byte-for-byte contents
are outside every claim). -/
def writeFile (p : FilePartModel) (st : ExecState) : ExecState × Option RunError :=
  let dest := renderT st.context p.destination
  ({ st with trace := st.trace ++ [.wrote dest] }, none)

/-- `LocalTutorialRunner.run_alternative`: assert at most one chosen key is
declared, silently skip when none is, otherwise dispatch the nested part
stored under the single selected key. -/
def runAlternative (exec : String → ProcResult) (tw : TestWorlds)
    (part : AlternativeModel) (st : ExecState) : ExecState × Option RunError :=
  let selected := selectedAlternatives st.alternatives part
  if selected.length ≤ 1 then
    match selected.head? with
    | none => (st, none)
    | some k =>
        match part.alternatives.get? k with
        | some (.commands p) => runCommands exec tw p.commands 0 st
        | some (.file p) => writeFile p st
        | none => (st, none)  -- unreachable: selected keys are declared keys
  else
    (st, some (.assertionFailed "More then one part selected."))

/-! ## `LocalTutorialRunner.run_parts` and the cleanup guard -/

/-- The `run:` section of a part, as read by `run_parts` after the prompt
branch (prompt parts `continue` before it is consulted). -/
def PartModel.runCfg : PartModel → PartRunConfiguration
  | .commands p => p.run
  | .file p => p.run
  | .alternative p => p.run
  | .prompt _ => {}

/-- The outcome of `run_prompt` is driven by the operator; it is an oracle
returning the `PromptNotConfirmedError` the prompt raises, if any. -/
abbrev PromptOracle := PromptModel → Option RunError

/-- `LocalTutorialRunner.run_parts`: prompts run only interactively, skipped
parts are passed over, each other part dispatches on its variant and then
merges its `run.update_context`; the first error aborts the remaining
parts. `ptw p` provides the test worlds of part number `p`. -/
def runParts (exec : String → ProcResult) (ptw : Nat → TestWorlds)
    (promptFn : PromptOracle) (interactive : Bool) :
    List PartModel → Nat → ExecState → ExecState × Option RunError
  | [], _, _st => (_st, none)
  | part :: rest, n, st =>
      match part with
      | .prompt p =>
          if interactive then
            match promptFn p with
            | some e => (st, some e)
            | none => runParts exec ptw promptFn interactive rest (n + 1) st
          else runParts exec ptw promptFn interactive rest (n + 1) st
      | _ =>
          if part.runCfg.skip then runParts exec ptw promptFn interactive rest (n + 1) st
          else
            let (st', err) :=
              match part with
              | .commands p => runCommands exec (ptw n) p.commands 0 st
              | .file p => writeFile p st
              | .alternative p => runAlternative exec (ptw n) p st
              | .prompt _ => (st, none)  -- unreachable: handled above
            match err with
            | some e => (st', some e)
            | none =>
                let st'' := { st' with
                  context := st'.context.update part.runCfg.update_context }
                runParts exec ptw promptFn interactive rest (n + 1) st''

/-- What `run()` hands back to its caller: the final state, the error that
propagated out of the guard (`surfaced`), the error the guard caught inside
(`handled`), and whether the blocking failure-recovery prompt ran. -/
structure RunOutcome where
  state : ExecState
  surfaced : Option RunError
  handled : Option RunError
  prompted : Bool

/-- The `finally:` block of `utils.cleanup`: each stacked cleanup command is
executed through `run_shell_command` in the stored order. -/
def drainCleanup (exec : String → ProcResult) (st : ExecState) : ExecState :=
  st.cleanup.foldl (fun s cc => (runShellCommand exec s cc.command).2) st

/-- The `utils.cleanup` context manager: an `PromptNotConfirmedError` from
the body is logged without the recovery prompt, any other exception is
logged and (interactively) prompted; the `finally:` block then drains the
cleanup stack. None of the `except` clauses re-raises, so nothing is ever
surfaced past the guard. -/
def cleanupGuard (exec : String → ProcResult) (interactive : Bool)
    (body : ExecState → ExecState × Option RunError) (st : ExecState) :
    RunOutcome :=
  let (st1, err) := body st
  let prompted :=
    match err with
    | none => false
    | some (.promptNotConfirmed _) => false
    | some _ => interactive
  { state := drainCleanup exec st1, surfaced := none, handled := err,
    prompted := prompted }

/-- `LocalTutorialRunner.run()` for a configuration using neither
`temporary_directory` nor `git_export` (the scratch-space modes add
directory bookkeeping around the same guarded body and are outside every
claim): build the runner state, then run the parts inside the cleanup
guard. -/
def runTutorial (exec : String → ProcResult) (ptw : Nat → TestWorlds)
    (promptFn : PromptOracle) (osEnviron : Dict String)
    (tutorial : TutorialModel) (alternatives : List String)
    (context : Dict String) (interactive : Bool) : RunOutcome :=
  let st := initRunner osEnviron tutorial alternatives context
  cleanupGuard exec interactive
    (runParts exec ptw promptFn interactive tutorial.parts 1) st

/-! ## A concrete regular expression

The output-test example of the spec uses the pattern `foo (?P<mid>\w+) bla`. The
engine treats a compiled pattern as an oracle; for the example we implement
the `search` of this one pattern honestly: leftmost match, greedy `\w+` with
backtracking. -/

/-- Python `\w` (ASCII range, which covers the claimed inputs). -/
def isWordChar (c : Char) : Bool := c.isAlphanum || c = '_'

/-- Backtracking for the `\w+` run: try the longest candidate length first,
requiring the literal `" bla"` to follow. -/
def fooMidBlaTry (rest : List Char) : Nat → Option (List Char)
  | 0 => none
  | k + 1 =>
      if (" bla".toList).isPrefixOf (rest.drop (k + 1)) then
        some (rest.take (k + 1))
      else fooMidBlaTry rest k

/-- Leftmost search for `foo (?P<mid>\w+) bla`, returning the text captured
by `mid`. -/
def fooMidBlaSearch : List Char → Option (List Char)
  | [] => none
  | c :: rest =>
      if ("foo ".toList).isPrefixOf (c :: rest) then
        let tail := (c :: rest).drop 4
        let run := tail.takeWhile isWordChar
        match fooMidBlaTry tail run.length with
        | some mid => some mid
        | none => fooMidBlaSearch rest
      else fooMidBlaSearch rest

/-- The compiled pattern `re.compile(r"foo (?P<mid>\w+) bla")` as a search
oracle: on a match, the groupdict holds the `mid` capture. -/
def fooMidBlaRegex : RegexFn := fun s =>
  (fooMidBlaSearch s.toList).map (fun mid => [("mid", String.mk mid)])

/-- A well-formed dict: no key occurs twice. True of every Python dict. -/
def Dict.KeysNodup (m : Dict α) : Prop := (m.map Prod.fst).Nodup

/-- The effective-environment formula asserted by claim C8, stated from the
claim's words for comparison with the code's `effectiveEnv`: the inherited
process environment (or the empty map under run-level `clear_environment`)
overlaid with the configured base overrides, overlaid with the per-command
overrides, each overlay value template-rendered. -/
def claimedEffectiveEnv (osEnviron : Dict String) (cfg : RuntimeConfiguration)
    (ctx : Dict String) (cmdEnv : Dict Template) : Dict String :=
  let inherited : Dict String := if cfg.clear_environment then [] else osEnviron
  (inherited.update (Dict.filterSomeMap (renderT ctx) cfg.environment)).update
    (renderVals ctx cmdEnv)

/-- The cleanup lists of the commands that actually execute during
`run_commands` (skipped commands contribute nothing; a command that fails its
status check still registers its cleanup list, and aborts the rest). Mirrors
the recursion of `runCommands`. -/
def executedCleanups (exec : String → ProcResult) (tw : TestWorlds) :
    List CommandModel → Nat → ExecState → List (List CleanupCommandModel)
  | [], _, _ => []
  | cmd :: rest, idx, st =>
      if cmd.run.skip then executedCleanups exec tw rest (idx + 1) st
      else
        match runOneCommand exec (tw idx) cmd st with
        | (_, some _) => [cmd.run.cleanup]
        | (st', none) => cmd.run.cleanup :: executedCleanups exec tw rest (idx + 1) st'

/-! ## Helper lemmas -/

theorem Dict.get?_set (m : Dict α) (k : String) (v : α) :
    (m.set k v).get? k = some v := by
  induction m with
  | nil => simp [Dict.set, Dict.get?]
  | cons p rest ih =>
      by_cases hp : p.1 = k
      · simp [Dict.set, Dict.get?, hp]
      · have hb : (p.1 == k) = false := by simp [hp]
        simpa [Dict.set, Dict.get?, hb] using ih

theorem Dict.update_single (m : Dict α) (k : String) (v : α) :
    m.update [(k, v)] = m.set k v := rfl

/-- `testLoop` with `delay`-free parameters `retry = 3`,
`backoff_factor = 1` and an always-failing probe: three backoff sleeps, four
attempts, no success. -/
theorem testLoop_3_1_allFail (ok : Nat → Bool) (h : ∀ t, ok t = false) :
    testLoop 3 1 ok 0 = ([1, 2, 4], 4, false) := by
  have hok : ok = fun _ => false := funext h
  rw [hok]
  simp [testLoop]
  norm_num

/-! ## Claims -/

/-- C3: a `CommandTest` or `PortTest` with `delay=2`, `retry=3`,
`backoff_factor=1` whose probe fails on every attempt makes exactly 4 probe
attempts with the sleep sequence exactly `[2, 1, 2, 4]` (initial delay once,
then `backoff_factor * 2 ^ (attempt - 1)` after each failed non-final
attempt, no sleep after the final failed attempt) and then raises the
test-exhaustion error "Test did not pass". -/
theorem claimC3_backoff_timing (sc : Int) (cmd : Template) (host : String)
    (portNo : Nat) (proc : ProcResult) (w : World) (ctx : Dict String)
    (hcmd : ∀ t, sc ≠ w.execTest t) (hport : ∀ t, w.connectOk t = false) :
    runTest (.command ⟨2, 3, 1⟩ sc cmd) proc w ctx =
      { sleeps := [2, 1, 2, 4], attempts := 4, ctx := ctx,
        error := some (.testExhausted "Test did not pass") } ∧
    runTest (.port ⟨2, 3, 1⟩ host portNo) proc w ctx =
      { sleeps := [2, 1, 2, 4], attempts := 4, ctx := ctx,
        error := some (.testExhausted "Test did not pass") } := by
  have hc : testLoop 3 1 (fun t => decide (sc = w.execTest t)) 0 =
      ([1, 2, 4], 4, false) :=
    testLoop_3_1_allFail _ (fun t => by simp [hcmd t])
  have hp : testLoop 3 1 w.connectOk 0 = ([1, 2, 4], 4, false) :=
    testLoop_3_1_allFail _ hport
  constructor
  · simp only [runTest, hc]
    norm_num
  · simp only [runTest, hp]
    norm_num

theorem claimC3_backoff_timing_witness :
    runTest (.command ⟨2, 3, 1⟩ 0 []) ⟨0, "", ""⟩
        ⟨fun _ => 1, fun _ => false⟩ [] =
      { sleeps := [2, 1, 2, 4], attempts := 4, ctx := [],
        error := some (.testExhausted "Test did not pass") } ∧
    runTest (.port ⟨2, 3, 1⟩ "localhost" 8000) ⟨0, "", ""⟩
        ⟨fun _ => 1, fun _ => false⟩ [] =
      { sleeps := [2, 1, 2, 4], attempts := 4, ctx := [],
        error := some (.testExhausted "Test did not pass") } := by
  refine claimC3_backoff_timing 0 [] "localhost" 8000 ⟨0, "", ""⟩
    ⟨fun _ => 1, fun _ => false⟩ [] ?_ ?_
  · intro t
    show (0 : Int) ≠ 1
    decide
  · intro t
    rfl

/-- C6: an `OutputTest` is evaluated once against the captured output of
the owning command: on a regex match the named capture groups are merged into
the context with no error and no sleeps or probe attempts (in particular,
stdout `"foo bar bla"` against `foo (?P<mid>\w+) bla` yields `mid = "bar"`);
on no match an output-mismatch error is raised immediately, with no retry or
sleep, and the context is left unchanged. -/
theorem claimC6_output_test (stream : OutStream) (r : RegexFn)
    (proc : ProcResult) (w w' : World) (ctx : Dict String) :
    (∀ groups, r (streamValue stream proc) = some groups →
      runTest (.output stream r) proc w ctx =
        { sleeps := [], attempts := 0, ctx := ctx.update groups,
          error := none }) ∧
    (r (streamValue stream proc) = none →
      runTest (.output stream r) proc w ctx =
        { sleeps := [], attempts := 0, ctx := ctx,
          error := some (.outputMismatch
            ("Process did not have the expected output: \x27"
              ++ streamValue stream proc ++ "\x27")) }) ∧
    runTest (.output .stdout fooMidBlaRegex) ⟨0, "foo bar bla", ""⟩ w' ctx =
      { sleeps := [], attempts := 0, ctx := ctx.set "mid" "bar",
        error := none } ∧
    (ctx.set "mid" "bar").get? "mid" = some "bar" := by
  refine ⟨fun groups hg => ?_, fun hn => ?_, ?_, Dict.get?_set ctx "mid" "bar"⟩
  · simp only [runTest, hg]
  · simp only [runTest, hn]
  · have hsearch : fooMidBlaRegex "foo bar bla" = some [("mid", "bar")] := by
      decide
    simp only [runTest, streamValue, hsearch, Dict.update_single]

theorem claimC6_output_test_witness :
    runTest (.output .stdout fooMidBlaRegex) ⟨0, "foo bar bla", ""⟩
        ⟨fun _ => 0, fun _ => true⟩ [] =
      { sleeps := [], attempts := 0, ctx := [("mid", "bar")], error := none } ∧
    runTest (.output .stdout fooMidBlaRegex) ⟨0, "no match here", ""⟩
        ⟨fun _ => 0, fun _ => true⟩ [("k", "v")] =
      { sleeps := [], attempts := 0, ctx := [("k", "v")],
        error := some (.outputMismatch
          "Process did not have the expected output: \x27no match here\x27") } := by
  constructor
  · have h := (claimC6_output_test .stdout fooMidBlaRegex ⟨0, "foo bar bla", ""⟩
      ⟨fun _ => 0, fun _ => true⟩ ⟨fun _ => 0, fun _ => true⟩ []).2.2.1
    simpa [Dict.set] using h
  · have h := (claimC6_output_test .stdout fooMidBlaRegex ⟨0, "no match here", ""⟩
      ⟨fun _ => 0, fun _ => true⟩ ⟨fun _ => 0, fun _ => true⟩
      [("k", "v")]).2.1 (by decide)
    simpa using h

/-- The environment branch of `run_shell_command` when no per-command
overrides are passed (the only way the engine itself ever calls it):
`clear_environment` yields the empty map, otherwise `self.environment` is
used unchanged. -/
theorem effectiveEnv_none (env ctx : Dict String) (c : Bool) :
    effectiveEnv env ctx none c = if c then [] else env := by
  simp [effectiveEnv]

/-- `run_test` can only raise output-mismatch or test-exhaustion errors. -/
theorem runTest_error_shape (test : TestModel) (proc : ProcResult) (w : World)
    (ctx : Dict String) :
    (runTest test proc w ctx).error = none ∨
    (∃ m, (runTest test proc w ctx).error = some (.outputMismatch m)) ∨
    (∃ m, (runTest test proc w ctx).error = some (.testExhausted m)) := by
  cases test with
  | output stream regex =>
      cases h : regex (streamValue stream proc) with
      | some groups => left; simp [runTest, h]
      | none =>
          right; left
          exact ⟨"Process did not have the expected output: \x27"
            ++ streamValue stream proc ++ "\x27", by simp [runTest, h]⟩
  | command spec sc cmd =>
      by_cases h : (testLoop spec.retry spec.backoff_factor
          (fun t => decide (sc = w.execTest t)) 0).2.2 = true
      · left; simp [runTest, h]
      · right; right
        exact ⟨"Test did not pass", by simp [runTest, Bool.eq_false_iff.mpr h]⟩
  | port spec host portNo =>
      by_cases h : (testLoop spec.retry spec.backoff_factor w.connectOk 0).2.2 = true
      · left; simp [runTest, h]
      · right; right
        exact ⟨"Test did not pass", by simp [runTest, Bool.eq_false_iff.mpr h]⟩

/-- The test phase of a command never raises a status-mismatch error. -/
theorem runTests_no_statusMismatch (proc : ProcResult) (tw : Nat → World)
    (tests : List TestModel) (idx : Nat) (ctx : Dict String) (m : String) :
    (runTests proc tw tests idx ctx).2 ≠ some (.statusMismatch m) := by
  induction tests generalizing idx ctx with
  | nil => simp [runTests]
  | cons test rest ih =>
      simp only [runTests]
      rcases runTest_error_shape test proc (tw idx) ctx with h | ⟨m', h⟩ | ⟨m', h⟩
      · rw [h]
        exact ih (idx + 1) _
      · rw [h]
        simp
      · rw [h]
        simp

/-- C5, counterexample to the claim as stated: the status-mismatch message
embeds the configured command string, not the rendered one. For the command
template `echo \x7b\x7b key \x7d\x7d` under context `key=value`, which
renders to `echo value` and exits with 2 while 0 was expected, the raised
message does not contain the rendered command. -/
theorem claimC5_status_message_counterexample :
    (runOneCommand (fun _ => ⟨2, "", ""⟩) (fun _ => ⟨fun _ => 0, fun _ => true⟩)
        ⟨[TItem.lit "echo ", TItem.var "key"], {}⟩
        { context := [("key", "value")], environment := [] }).2 =
      some (.statusMismatch
        "echo \x7b\x7b key \x7d\x7d failed with return code 2 (expected: 0).") ∧
    ¬ ("echo value".toList <:+:
        ("echo \x7b\x7b key \x7d\x7d failed with return code 2 (expected: 0).").toList) := by
  constructor
  · rfl
  · decide

/-- C5, amended: for a command whose subprocess exits with code `A` different
from the expected code `E`, `run_commands` raises a status-mismatch error
whose message is exactly the configured (unrendered) command string followed
by `A` and `E` (which contains the rendered command only when the command has
no template syntax); a command whose exit code equals `E` raises no
status-mismatch error. -/
theorem claimC5_status_code_contract (exec : String → ProcResult)
    (tw : Nat → World) (cmd : CommandModel) (st : ExecState) :
    ((exec (renderT st.context cmd.command)).returncode ≠ cmd.run.status_code →
      (runOneCommand exec tw cmd st).2 =
        some (.statusMismatch
          (templateSource cmd.command ++ " failed with return code "
            ++ toString (exec (renderT st.context cmd.command)).returncode
            ++ " (expected: " ++ toString cmd.run.status_code ++ ")."))) ∧
    ((exec (renderT st.context cmd.command)).returncode = cmd.run.status_code →
      ∀ m, (runOneCommand exec tw cmd st).2 ≠ some (.statusMismatch m)) := by
  constructor
  · intro h
    simp only [runOneCommand, runShellCommand, if_pos h]
  · intro h m
    simp only [runOneCommand, runShellCommand, h]
    simp only [ne_eq, not_true_eq_false, if_false, ite_false]
    exact runTests_no_statusMismatch _ _ _ _ _ m

theorem claimC5_status_code_contract_witness :
    (runOneCommand (fun _ => ⟨2, "", ""⟩) (fun _ => ⟨fun _ => 0, fun _ => true⟩)
        ⟨[TItem.lit "false"], {}⟩ { context := [], environment := [] }).2 =
      some (.statusMismatch "false failed with return code 2 (expected: 0).") ∧
    ∀ m, (runOneCommand (fun _ => ⟨0, "", ""⟩)
        (fun _ => ⟨fun _ => 0, fun _ => true⟩)
        ⟨[TItem.lit "true"], {}⟩ { context := [], environment := [] }).2 ≠
      some (.statusMismatch m) := by
  constructor
  · have h := (claimC5_status_code_contract (fun _ => ⟨2, "", ""⟩)
      (fun _ => ⟨fun _ => 0, fun _ => true⟩) ⟨[TItem.lit "false"], {}⟩
      { context := [], environment := [] }).1 (by decide)
    simpa using h
  · exact (claimC5_status_code_contract (fun _ => ⟨0, "", ""⟩)
      (fun _ => ⟨fun _ => 0, fun _ => true⟩) ⟨[TItem.lit "true"], {}⟩
      { context := [], environment := [] }).2 rfl

/-- One command without tests that passes its status check: the cleanup list
is prepended, the event recorded, and `update_context` merged. -/
theorem runOneCommand_ok (exec : String → ProcResult) (tw : Nat → World)
    (cmd : CommandModel) (st : ExecState)
    (h : (exec (renderT st.context cmd.command)).returncode = cmd.run.status_code)
    (htests : cmd.run.test = []) :
    runOneCommand exec tw cmd st =
      ({ st with context := st.context.update cmd.run.update_context,
                 cleanup := cmd.run.cleanup ++ st.cleanup,
                 trace := st.trace ++ [.ran (renderT st.context cmd.command)
                   (effectiveEnv st.environment st.context none false)] },
       none) := by
  simp only [runOneCommand, runShellCommand, h, htests, runTests, ne_eq,
    not_true_eq_false, if_false]

/-- One command that fails its status check: the cleanup list has already
been prepended and the event recorded when the status-mismatch error is
raised; the context is not updated. -/
theorem runOneCommand_fail (exec : String → ProcResult) (tw : Nat → World)
    (cmd : CommandModel) (st : ExecState)
    (h : (exec (renderT st.context cmd.command)).returncode ≠ cmd.run.status_code) :
    runOneCommand exec tw cmd st =
      ({ st with cleanup := cmd.run.cleanup ++ st.cleanup,
                 trace := st.trace ++ [.ran (renderT st.context cmd.command)
                   (effectiveEnv st.environment st.context none false)] },
       some (.statusMismatch
         (templateSource cmd.command ++ " failed with return code "
           ++ toString (exec (renderT st.context cmd.command)).returncode
           ++ " (expected: " ++ toString cmd.run.status_code ++ ")."))) := by
  simp only [runOneCommand, runShellCommand, if_pos h]

/-- C7: a command with `update_context = \x7b"key": "value"\x7d` that passes
its status check merges the binding into the context after the check, and the
next command is rendered against the updated context immediately before its
own invocation; in particular the argument template `\x7b\x7b key \x7d\x7d`
renders to the literal string `value`. -/
theorem claimC7_context_propagation (exec : String → ProcResult)
    (tw : TestWorlds) (st : ExecState) (cmd1tpl c2tpl : Template)
    (h : (exec (renderT st.context cmd1tpl)).returncode = 0) :
    (runCommands exec tw
        [⟨cmd1tpl, { update_context := [("key", "value")] }⟩, ⟨c2tpl, {}⟩]
        0 st).1.trace =
      st.trace ++ [.ran (renderT st.context cmd1tpl) st.environment,
        .ran (renderT (st.context.update [("key", "value")]) c2tpl)
          st.environment] ∧
    renderT (st.context.update [("key", "value")]) [TItem.var "key"] = "value" := by
  have hjoin : renderT (st.context.update [("key", "value")]) [TItem.var "key"]
      = "value" := by
    simp [renderT, Dict.update_single, Dict.get?_set, String.join]
  refine ⟨?_, hjoin⟩
  have h1 := runOneCommand_ok exec (tw 0)
    ⟨cmd1tpl, { update_context := [("key", "value")] }⟩ st (by simpa using h) rfl
  simp only [runCommands, Bool.false_eq_true, if_false, h1]
  set st' : ExecState :=
    { st with context := st.context.update [("key", "value")],
              cleanup := [] ++ st.cleanup,
              trace := st.trace ++ [.ran (renderT st.context cmd1tpl)
                (effectiveEnv st.environment st.context none false)] } with hst'
  by_cases h2 : (exec (renderT st'.context c2tpl)).returncode = 0
  · have h2' := runOneCommand_ok exec (tw 1) ⟨c2tpl, {}⟩ st' (by simpa using h2) rfl
    simp only [runCommands, Bool.false_eq_true, if_false, h2', hst']
    simp [effectiveEnv_none]
  · have h2' := runOneCommand_fail exec (tw 1) ⟨c2tpl, {}⟩ st' (by simpa using h2)
    simp only [runCommands, Bool.false_eq_true, if_false, h2', hst']
    simp [effectiveEnv_none]

theorem claimC7_context_propagation_witness :
    (runCommands (fun _ => ⟨0, "", ""⟩) (fun _ _ => ⟨fun _ => 0, fun _ => true⟩)
        [⟨[TItem.lit "setup"], { update_context := [("key", "value")] }⟩,
         ⟨[TItem.var "key"], {}⟩]
        0 { context := [], environment := [] }).1.trace =
      [.ran "setup" [], .ran "value" []] := by
  have h := (claimC7_context_propagation (fun _ => ⟨0, "", ""⟩)
    (fun _ _ => ⟨fun _ => 0, fun _ => true⟩) { context := [], environment := [] }
    [TItem.lit "setup"] [TItem.var "key"] rfl)
  rw [h.1]
  rfl

/-- C8, counterexample to the claim as stated: with the per-command
`clear_environment` flag set, the effective environment is the rendered
per-command overrides alone; the inherited variable `A` is dropped, so the
claimed composition does not hold. -/
theorem claimC8_environment_counterexample :
    effectiveEnv (initEnvironment [("A", "1")] {} [] []) []
        (some [("B", [TItem.lit "2"])]) true = [("B", "2")] ∧
    claimedEffectiveEnv [("A", "1")] {} [] [("B", [TItem.lit "2"])] =
      [("A", "1"), ("B", "2")] ∧
    effectiveEnv (initEnvironment [("A", "1")] {} [] []) []
        (some [("B", [TItem.lit "2"])]) true ≠
      claimedEffectiveEnv [("A", "1")] {} [] [("B", [TItem.lit "2"])] := by
  refine ⟨rfl, rfl, ?_⟩
  decide

/-- C8, amended: when the per-command `clear_environment` flag is not set,
the effective subprocess environment is the runner base environment (the
inherited process environment, or the empty map under run-level
`clear_environment`, overlaid with the configured base overrides and each
overrides of each chosen alternative, `None`-filtered and value-rendered) overlaid
with the rendered per-command overrides; when the per-command flag is set,
the effective environment is the rendered per-command overrides alone. -/
theorem claimC8_environment_composition (osEnviron : Dict String)
    (cfg : RuntimeConfiguration) (alts : List String) (selfEnv ctx : Dict String)
    (e : Dict Template) :
    effectiveEnv selfEnv ctx (some e) false = selfEnv.update (renderVals ctx e) ∧
    effectiveEnv selfEnv ctx (some e) true = renderVals ctx e ∧
    effectiveEnv (initEnvironment osEnviron cfg alts ctx) ctx (some e) false =
      (Dict.filterSomeMap (renderT ctx)
        (composedEnvironment osEnviron cfg alts)).update (renderVals ctx e) := by
  have h1 : ∀ env : Dict String, effectiveEnv env ctx (some e) false =
      env.update (renderVals ctx e) := by
    intro env
    cases e with
    | nil => simp [effectiveEnv, Dict.update, renderVals, Dict.mapVals]
    | cons p rest =>
        by_cases hre : (renderVals ctx (p :: rest)).isEmpty
        · simp [renderVals, Dict.mapVals] at hre
        · simp [effectiveEnv, hre]
  refine ⟨h1 selfEnv, ?_, h1 _⟩
  cases e with
  | nil => simp [effectiveEnv, renderVals, Dict.mapVals]
  | cons p rest => simp [effectiveEnv, renderVals, Dict.mapVals]

/-! ### Key-uniqueness lemmas (Python dicts are duplicate-free) -/

theorem Dict.get?_set_ne (m : Dict α) (k' k : String) (v : α) (h : k' ≠ k) :
    (m.set k' v).get? k = m.get? k := by
  have hkk : (k' == k) = false := by simp [h]
  induction m with
  | nil => simp [Dict.set, Dict.get?, hkk]
  | cons p rest ih =>
      by_cases hp : p.1 = k'
      · have hbt : (p.1 == k') = true := by simp [hp]
        have hk : (p.1 == k) = false := by simp [hp, h]
        simp [Dict.set, Dict.get?, hbt, hk, hkk]
      · have hb : (p.1 == k') = false := by simp [hp]
        by_cases hk : p.1 = k
        · have hkt : (p.1 == k) = true := by simp [hk]
          simp [Dict.set, Dict.get?, hb, hkt]
        · have hkb : (p.1 == k) = false := by simp [hk]
          simpa [Dict.set, Dict.get?, hb, hkb] using ih

theorem Dict.get?_update_of_none (m ov : Dict α) (k : String)
    (h : ov.get? k = none) : (m.update ov).get? k = m.get? k := by
  induction ov generalizing m with
  | nil => simp [Dict.update]
  | cons p rest ih =>
      have hp : (p.1 == k) = false := by
        by_contra hc
        have : p.1 == k := by simpa using hc
        simp [Dict.get?, this] at h
      have hrest : Dict.get? rest k = none := by
        simpa [Dict.get?, hp] using h
      have hne : p.1 ≠ k := by simpa using hp
      calc (Dict.update m (p :: rest)).get? k
          = (Dict.update (m.set p.1 p.2) rest).get? k := rfl
        _ = (m.set p.1 p.2).get? k := ih _ hrest
        _ = m.get? k := Dict.get?_set_ne m p.1 k p.2 hne

theorem Dict.get?_eq_none_of_notMem (m : Dict α) (k : String)
    (h : k ∉ m.map Prod.fst) : m.get? k = none := by
  have hfind : m.find? (fun p => p.1 == k) = none := by
    rw [List.find?_eq_none]
    intro p hp
    simp only [beq_iff_eq]
    intro hpk
    exact h (by simpa [hpk] using List.mem_map_of_mem Prod.fst hp)
  simp [Dict.get?, hfind]

theorem Dict.get?_update_of_some (m ov : Dict α) (k : String) (v : α)
    (hnd : Dict.KeysNodup ov) (h : ov.get? k = some v) :
    (m.update ov).get? k = some v := by
  induction ov generalizing m with
  | nil => simp [Dict.get?] at h
  | cons p rest ih =>
      simp only [Dict.KeysNodup, List.map_cons, List.nodup_cons] at hnd
      by_cases hp : p.1 = k
      · have hbt : (p.1 == k) = true := by simp [hp]
        have hv : p.2 = v := by
          have := h
          simp only [Dict.get?, List.find?_cons, hbt] at this
          simpa using this
        have hni : k ∉ List.map Prod.fst rest := hp ▸ hnd.1
        have hnotin : Dict.get? rest k = none :=
          Dict.get?_eq_none_of_notMem rest k hni
        calc (Dict.update m (p :: rest)).get? k
            = (Dict.update (m.set p.1 p.2) rest).get? k := rfl
          _ = (m.set p.1 p.2).get? k := Dict.get?_update_of_none _ _ _ hnotin
          _ = some v := by rw [hp, hv]; exact Dict.get?_set _ _ _
      · have hb : (p.1 == k) = false := by simp [hp]
        have hrest : Dict.get? rest k = some v := by simpa [Dict.get?, hb] using h
        exact ih (m.set p.1 p.2) hnd.2 hrest

theorem Dict.mem_keys_set (m : Dict α) (k : String) (v : α) (a : String) :
    a ∈ (m.set k v).map Prod.fst ↔ a ∈ m.map Prod.fst ∨ a = k := by
  induction m with
  | nil => simp [Dict.set]
  | cons p rest ih =>
      by_cases hp : p.1 = k
      · have hbt : (p.1 == k) = true := by simp [hp]
        simp only [Dict.set, hbt, if_true, List.map_cons, List.mem_cons, hp]
        simp only [beq_self_eq_true, if_true, List.map_cons, List.mem_cons]
        tauto
      · have hb : (p.1 == k) = false := by simp [hp]
        simp only [Dict.set, hb, Bool.false_eq_true, if_false, List.map_cons,
          List.mem_cons, ih]
        tauto

theorem Dict.keysNodup_set (m : Dict α) (k : String) (v : α)
    (h : Dict.KeysNodup m) : Dict.KeysNodup (m.set k v) := by
  induction m with
  | nil => simp [Dict.KeysNodup, Dict.set]
  | cons p rest ih =>
      simp only [Dict.KeysNodup, List.map_cons, List.nodup_cons] at h
      by_cases hp : p.1 = k
      · have hbt : (p.1 == k) = true := by simp [hp]
        simp only [Dict.set, hbt, if_true]
        simp only [Dict.KeysNodup, List.map_cons, List.nodup_cons]
        exact ⟨hp ▸ h.1, h.2⟩
      · have hb : (p.1 == k) = false := by simp [hp]
        simp only [Dict.set, hb, Bool.false_eq_true, if_false]
        simp only [Dict.KeysNodup, List.map_cons, List.nodup_cons]
        refine ⟨fun hc => ?_, ih h.2⟩
        rcases (Dict.mem_keys_set rest k v p.1).mp hc with h1 | h1
        · exact h.1 h1
        · exact hp h1

theorem Dict.keysNodup_update (m ov : Dict α) (h : Dict.KeysNodup m) :
    Dict.KeysNodup (m.update ov) := by
  induction ov generalizing m with
  | nil => exact h
  | cons p rest ih => exact ih _ (Dict.keysNodup_set m p.1 p.2 h)

theorem Dict.keysNodup_mapVals (m : Dict α) (f : α → β) (h : Dict.KeysNodup m) :
    Dict.KeysNodup (Dict.mapVals f m) := by
  simpa [Dict.KeysNodup, Dict.mapVals, List.map_map, Function.comp] using h

theorem Dict.keys_filterSomeMap_subset (m : Dict (Option α)) (f : α → β) :
    ((Dict.filterSomeMap f m).map Prod.fst) ⊆ (m.map Prod.fst) := by
  induction m with
  | nil => simp [Dict.filterSomeMap]
  | cons p rest ih =>
      cases hv : p.2 with
      | some v =>
          simp only [Dict.filterSomeMap, hv, List.map_cons]
          intro a ha
          rcases List.mem_cons.mp ha with ha | ha
          · simp [ha]
          · exact List.mem_cons_of_mem _ (ih ha)
      | none =>
          simp only [Dict.filterSomeMap, hv, List.map_cons]
          intro a ha
          exact List.mem_cons_of_mem _ (ih ha)

theorem Dict.get?_filterSomeMap_of_none (m : Dict (Option α)) (f : α → β)
    (k : String) (hnd : Dict.KeysNodup m) (h : m.get? k = some none) :
    (Dict.filterSomeMap f m).get? k = none := by
  induction m with
  | nil => simp [Dict.get?] at h
  | cons p rest ih =>
      simp only [Dict.KeysNodup, List.map_cons, List.nodup_cons] at hnd
      by_cases hp : p.1 = k
      · have hbt : (p.1 == k) = true := by simp [hp]
        have hv : p.2 = none := by
          have := h
          simp only [Dict.get?, List.find?_cons, hbt] at this
          simpa using this
        simp only [Dict.filterSomeMap, hv]
        apply Dict.get?_eq_none_of_notMem
        intro hc
        have := Dict.keys_filterSomeMap_subset rest f hc
        exact hnd.1 (hp ▸ this)
      · have hb : (p.1 == k) = false := by simp [hp]
        have hrest : Dict.get? rest k = some none := by
          simpa [Dict.get?, hb] using h
        have ihr := ih hnd.2 hrest
        cases hv : p.2 with
        | some v => simpa [Dict.filterSomeMap, hv, Dict.get?, hb] using ihr
        | none => simpa [Dict.filterSomeMap, hv] using ihr

/-- State components touched by one command: the base environment and the
chosen alternatives are never modified, the cleanup list is prepended, and
exactly one event is recorded, executed with the base environment. -/
theorem runOneCommand_components (exec : String → ProcResult) (tw : Nat → World)
    (cmd : CommandModel) (st : ExecState) :
    (runOneCommand exec tw cmd st).1.environment = st.environment ∧
    (runOneCommand exec tw cmd st).1.cleanup = cmd.run.cleanup ++ st.cleanup ∧
    (runOneCommand exec tw cmd st).1.alternatives = st.alternatives ∧
    (runOneCommand exec tw cmd st).1.trace =
      st.trace ++ [.ran (renderT st.context cmd.command) st.environment] := by
  unfold runOneCommand runShellCommand
  rcases hrt : runTests (exec (renderT st.context cmd.command)) tw cmd.run.test 0
      (Dict.update st.context cmd.run.update_context) with ⟨ctx', err⟩
  by_cases h : (exec (renderT st.context cmd.command)).returncode ≠ cmd.run.status_code
  · simp [h, effectiveEnv_none]
  · simp [h, effectiveEnv_none, hrt]

/-- Every event `run_commands` appends runs with the unchanged base
environment: the engine never passes per-command environment overrides. -/
theorem runCommands_trace_env (exec : String → ProcResult) (tw : TestWorlds)
    (cmds : List CommandModel) (idx : Nat) (st : ExecState) :
    (runCommands exec tw cmds idx st).1.environment = st.environment ∧
    ∀ ev ∈ (runCommands exec tw cmds idx st).1.trace,
      ev ∈ st.trace ∨ ∃ r, ev = Event.ran r st.environment := by
  induction cmds generalizing idx st with
  | nil => exact ⟨rfl, fun ev hev => Or.inl hev⟩
  | cons cmd rest ih =>
      by_cases hskip : cmd.run.skip = true
      · simpa [runCommands, hskip] using ih (idx + 1) st
      · rcases h1 : runOneCommand exec (tw idx) cmd st with ⟨st', err⟩
        have hc := runOneCommand_components exec (tw idx) cmd st
        rw [h1] at hc
        obtain ⟨henv, _hclean, _halt, htrace⟩ := hc
        have hmem : ∀ ev ∈ st'.trace,
            ev ∈ st.trace ∨ ∃ r, ev = Event.ran r st.environment := by
          intro ev hev
          rw [htrace] at hev
          rcases List.mem_append.mp hev with hev | hev
          · exact Or.inl hev
          · exact Or.inr ⟨_, List.mem_singleton.mp hev⟩
        cases err with
        | some e =>
            refine ⟨?_, ?_⟩
            · simp only [runCommands, hskip, Bool.false_eq_true, if_false, h1]
              exact henv
            · intro ev hev
              simp only [runCommands, hskip, Bool.false_eq_true, if_false, h1] at hev
              exact hmem ev hev
        | none =>
            have hih := ih (idx + 1) st'
            refine ⟨?_, ?_⟩
            · simp only [runCommands, hskip, Bool.false_eq_true, if_false, h1]
              rw [hih.1, henv]
            · intro ev hev
              simp only [runCommands, hskip, Bool.false_eq_true, if_false, h1] at hev
              rcases hih.2 ev hev with hev' | ⟨r, hev'⟩
              · exact hmem ev hev'
              · exact Or.inr ⟨r, by rw [hev', henv]⟩

/-- The composed pre-filter environment still maps `k` to `None` after the
run-level and alternative overlays, and keeps its keys duplicate-free. -/
theorem composedEnvironment_none (osEnviron : Dict String)
    (cfg : RuntimeConfiguration) (alts : List String) (k : String)
    (hosnd : Dict.KeysNodup osEnviron) (hcfgnd : Dict.KeysNodup cfg.environment)
    (hnone : cfg.environment.get? k = some none)
    (halts : ∀ a c, cfg.alternatives.get? a = some c →
      c.environment.get? k = none) :
    Dict.KeysNodup (composedEnvironment osEnviron cfg alts) ∧
    (composedEnvironment osEnviron cfg alts).get? k = some none := by
  unfold composedEnvironment
  have haux : ∀ (l : List String) (m : Dict (Option Template)),
      Dict.KeysNodup m → m.get? k = some none →
      Dict.KeysNodup (l.foldl (fun acc a =>
        match cfg.alternatives.get? a with
        | some c => acc.update c.environment
        | none => acc) m) ∧
      (l.foldl (fun acc a =>
        match cfg.alternatives.get? a with
        | some c => acc.update c.environment
        | none => acc) m).get? k = some none := by
    intro l
    induction l with
    | nil => exact fun m hm hk => ⟨hm, hk⟩
    | cons a rest ihl =>
        intro m hm hk
        simp only [List.foldl_cons]
        cases ha : cfg.alternatives.get? a with
        | some c =>
            exact ihl _ (Dict.keysNodup_update _ _ hm)
              ((Dict.get?_update_of_none m c.environment k (halts a c ha)).trans hk)
        | none => exact ihl _ hm hk
  have hbasend : Dict.KeysNodup
      (if cfg.clear_environment then ([] : Dict (Option Template))
       else osEnviron.mapVals (fun s => some [TItem.lit s])) := by
    by_cases hclear : cfg.clear_environment = true
    · simp [hclear, Dict.KeysNodup]
    · simp only [hclear, Bool.false_eq_true, if_false]
      exact Dict.keysNodup_mapVals _ _ hosnd
  exact haux alts _ (Dict.keysNodup_update _ _ hbasend)
    (Dict.get?_update_of_some _ _ _ _ hcfgnd hnone)

/-- C9: a base environment override whose configured value is `None` removes
the variable from the effective environment of the runner even when the inherited
process environment defines it (alternative overlays not re-adding it), and
every command subsequently executed through `run_commands` runs with an
environment in which the variable is absent. -/
theorem claimC9_none_override_removed (osEnviron : Dict String)
    (cfg : RuntimeConfiguration) (alts : List String) (ctx : Dict String)
    (k s : String)
    (hosnd : Dict.KeysNodup osEnviron) (hcfgnd : Dict.KeysNodup cfg.environment)
    (_hos : osEnviron.get? k = some s)
    (hnone : cfg.environment.get? k = some none)
    (halts : ∀ a c, cfg.alternatives.get? a = some c →
      c.environment.get? k = none) :
    (initEnvironment osEnviron cfg alts ctx).get? k = none ∧
    ∀ (exec : String → ProcResult) (tw : TestWorlds) (cmds : List CommandModel)
      (idx : Nat) (st : ExecState),
      st.environment = initEnvironment osEnviron cfg alts ctx →
      ∀ r env', Event.ran r env' ∈ (runCommands exec tw cmds idx st).1.trace →
        Event.ran r env' ∈ st.trace ∨ env'.get? k = none := by
  have hcomp := composedEnvironment_none osEnviron cfg alts k hosnd hcfgnd
    hnone halts
  have hinit : (initEnvironment osEnviron cfg alts ctx).get? k = none :=
    Dict.get?_filterSomeMap_of_none _ _ k hcomp.1 hcomp.2
  refine ⟨hinit, ?_⟩
  intro exec tw cmds idx st hst r env' hev
  rcases (runCommands_trace_env exec tw cmds idx st).2 _ hev with h | ⟨r', h⟩
  · exact Or.inl h
  · right
    have : env' = st.environment := by
      injection h with _ h2
    rw [this, hst]
    exact hinit

theorem claimC9_none_override_removed_witness :
    (initEnvironment [("K", "inherited")]
        { environment := [("K", none)] } [] []).get? "K" = none ∧
    (Event.ran "ls" [] ∈ ([] : List Event) ∨
      Dict.get? ([] : Dict String) "K" = none) := by
  have h := claimC9_none_override_removed [("K", "inherited")]
    { environment := [("K", none)] } [] [] "K" "inherited"
    (by simp [Dict.KeysNodup]) (by simp [Dict.KeysNodup]) rfl rfl
    (fun a c hc => by simp [Dict.get?] at hc)
  refine ⟨h.1, ?_⟩
  exact h.2 (fun _ => ⟨0, "", ""⟩) (fun _ _ => ⟨fun _ => 0, fun _ => true⟩)
    [⟨[TItem.lit "ls"], {}⟩] 0
    { context := [],
      environment := initEnvironment [("K", "inherited")]
        { environment := [("K", none)] } [] [] }
    rfl "ls" [] (by decide)

/-- Draining leaves context and environment unchanged and appends one event
per stacked cleanup command, in the stored order, rendered with the final
context. -/
theorem drainCleanup_foldl (exec : String → ProcResult)
    (l : List CleanupCommandModel) :
    ∀ st : ExecState,
      (l.foldl (fun s cc => (runShellCommand exec s cc.command).2) st).trace =
        st.trace ++ l.map (fun cc =>
          Event.ran (renderT st.context cc.command) st.environment) ∧
      (l.foldl (fun s cc => (runShellCommand exec s cc.command).2) st).context =
        st.context ∧
      (l.foldl (fun s cc => (runShellCommand exec s cc.command).2) st).environment =
        st.environment := by
  induction l with
  | nil => intro st; simp
  | cons cc rest ih =>
      intro st
      have hstep : (runShellCommand exec st cc.command).2 =
          { st with trace := st.trace ++
            [Event.ran (renderT st.context cc.command) st.environment] } := by
        simp [runShellCommand, effectiveEnv_none]
      simp only [List.foldl_cons, hstep]
      obtain ⟨h1, h2, h3⟩ := ih { st with trace := st.trace ++
        [Event.ran (renderT st.context cc.command) st.environment] }
      refine ⟨?_, by simpa using h2, by simpa using h3⟩
      rw [h1]
      simp

/-- C4: the cleanup stack after any prefix of a run equals the concatenation,
in reverse execution order, of the cleanup lists of the executed commands (each
prepended before the status check of the command) on top of the previous stack;
the guard drains the stack in exactly its stored order; hence in a part
running `c1` (cleanup `ca`) and then `c2` (cleanup `cb`), with `c1` passing
its status check, the drain executes `cb` then `ca` whether or not `c2`
passed its own status check. -/
theorem claimC4_cleanup_lifo (exec : String → ProcResult) (tw : TestWorlds)
    (cmds : List CommandModel) (idx : Nat) (st : ExecState)
    (exec2 : String → ProcResult) (tw2 : TestWorlds)
    (cmd1 cmd2 : Template) (ca cb : CleanupCommandModel) (st0 : ExecState)
    (hpass : (exec2 (renderT st0.context cmd1)).returncode = 0)
    (hstack : st0.cleanup = []) :
    (runCommands exec tw cmds idx st).1.cleanup =
      ((executedCleanups exec tw cmds idx st).reverse).flatten ++ st.cleanup ∧
    (∀ s : ExecState, (drainCleanup exec s).trace =
      s.trace ++ s.cleanup.map (fun cc =>
        Event.ran (renderT s.context cc.command) s.environment)) ∧
    (runCommands exec2 tw2
        [⟨cmd1, { cleanup := [ca] }⟩, ⟨cmd2, { cleanup := [cb] }⟩]
        0 st0).1.cleanup = [cb, ca] := by
  refine ⟨?_, fun s => (drainCleanup_foldl exec s.cleanup s).1, ?_⟩
  · induction cmds generalizing idx st with
    | nil => simp [runCommands, executedCleanups]
    | cons cmd rest ih =>
        by_cases hskip : cmd.run.skip = true
        · simpa [runCommands, executedCleanups, hskip] using ih (idx + 1) st
        · rcases h1 : runOneCommand exec (tw idx) cmd st with ⟨st', err⟩
          have hc := runOneCommand_components exec (tw idx) cmd st
          rw [h1] at hc
          cases err with
          | some e =>
              simp only [runCommands, executedCleanups, hskip,
                Bool.false_eq_true, if_false, h1]
              simpa using hc.2.1
          | none =>
              simp only [runCommands, executedCleanups, hskip,
                Bool.false_eq_true, if_false, h1]
              rw [ih (idx + 1) st', hc.2.1]
              simp
  · have h1 := runOneCommand_ok exec2 (tw2 0) ⟨cmd1, { cleanup := [ca] }⟩ st0
      (by simpa using hpass) rfl
    simp only [runCommands, Bool.false_eq_true, if_false, h1]
    set st1 : ExecState :=
      { st0 with context := st0.context.update [],
                 cleanup := [ca] ++ st0.cleanup,
                 trace := st0.trace ++ [.ran (renderT st0.context cmd1)
                   (effectiveEnv st0.environment st0.context none false)] }
      with hst1
    by_cases h2 : (exec2 (renderT st1.context cmd2)).returncode = 0
    · have h2' := runOneCommand_ok exec2 (tw2 1) ⟨cmd2, { cleanup := [cb] }⟩ st1
        (by simpa using h2) rfl
      simp only [runCommands, Bool.false_eq_true, if_false, h2', hst1]
      simp [hstack]
    · have h2' := runOneCommand_fail exec2 (tw2 1) ⟨cmd2, { cleanup := [cb] }⟩ st1
        (by simpa using h2)
      simp only [runCommands, Bool.false_eq_true, if_false, h2', hst1]
      simp [hstack]

theorem claimC4_cleanup_lifo_witness :
    (runCommands (fun r => if r = "c2" then ⟨1, "", ""⟩ else ⟨0, "", ""⟩)
        (fun _ _ => ⟨fun _ => 0, fun _ => true⟩)
        [⟨[TItem.lit "c1"], { cleanup := [{ command := [TItem.lit "clean_a"] }] }⟩,
         ⟨[TItem.lit "c2"], { cleanup := [{ command := [TItem.lit "clean_b"] }] }⟩]
        0 { context := [], environment := [] }).1.cleanup =
      [{ command := [TItem.lit "clean_b"] }, { command := [TItem.lit "clean_a"] }] := by
  have h := claimC4_cleanup_lifo
    (fun _ => ⟨0, "", ""⟩) (fun _ _ => ⟨fun _ => 0, fun _ => true⟩) [] 0
    { context := [], environment := [] }
    (fun r => if r = "c2" then ⟨1, "", ""⟩ else ⟨0, "", ""⟩)
    (fun _ _ => ⟨fun _ => 0, fun _ => true⟩)
    [TItem.lit "c1"] [TItem.lit "c2"]
    { command := [TItem.lit "clean_a"] } { command := [TItem.lit "clean_b"] }
    { context := [], environment := [] } (by decide) rfl
  exact h.2.2

/-- The test phase of a command never raises the `run_alternative`
assertion error. -/
theorem runTests_no_assertion (proc : ProcResult) (tw : Nat → World)
    (tests : List TestModel) (idx : Nat) (ctx : Dict String) (m : String) :
    (runTests proc tw tests idx ctx).2 ≠ some (.assertionFailed m) := by
  induction tests generalizing idx ctx with
  | nil => simp [runTests]
  | cons test rest ih =>
      simp only [runTests]
      rcases runTest_error_shape test proc (tw idx) ctx with h | ⟨m', h⟩ | ⟨m', h⟩
      · rw [h]
        exact ih (idx + 1) _
      · rw [h]
        simp
      · rw [h]
        simp

/-- One command never raises the `run_alternative` assertion error. -/
theorem runOneCommand_no_assertion (exec : String → ProcResult)
    (tw : Nat → World) (cmd : CommandModel) (st : ExecState) (m : String) :
    (runOneCommand exec tw cmd st).2 ≠ some (.assertionFailed m) := by
  by_cases h : (exec (renderT st.context cmd.command)).returncode ≠ cmd.run.status_code
  · rw [runOneCommand_fail exec tw cmd st h]
    simp
  · unfold runOneCommand runShellCommand
    rcases hrt : runTests (exec (renderT st.context cmd.command)) tw cmd.run.test 0
        (Dict.update st.context cmd.run.update_context) with ⟨ctx', err⟩
    have := runTests_no_assertion (exec (renderT st.context cmd.command)) tw
      cmd.run.test 0 (Dict.update st.context cmd.run.update_context) m
    rw [hrt] at this
    simp only at this
    simp [h, hrt, this]

/-- `run_commands` never raises the `run_alternative` assertion error. -/
theorem runCommands_no_assertion (exec : String → ProcResult) (tw : TestWorlds)
    (cmds : List CommandModel) (idx : Nat) (st : ExecState) (m : String) :
    (runCommands exec tw cmds idx st).2 ≠ some (.assertionFailed m) := by
  induction cmds generalizing idx st with
  | nil => simp [runCommands]
  | cons cmd rest ih =>
      by_cases hskip : cmd.run.skip = true
      · simpa [runCommands, hskip] using ih (idx + 1) st
      · rcases h1 : runOneCommand exec (tw idx) cmd st with ⟨st', err⟩
        cases err with
        | some e =>
            have := runOneCommand_no_assertion exec (tw idx) cmd st m
            rw [h1] at this
            simp only [runCommands, hskip, Bool.false_eq_true, if_false, h1]
            simpa using this
        | none =>
            simp only [runCommands, hskip, Bool.false_eq_true, if_false, h1]
            exact ih (idx + 1) st'

/-- C10: `run_alternative` asserts that at most one chosen key is declared by
the part; with at most one selected key the assertion never fires (no
assertion error is raised), with exactly one selected key the nested part
stored under it is dispatched (`run_commands` for a `Commands` part,
`write_file` for a `File` part), and with two or more selected keys the
assertion fails with the state untouched, before any nested part executes. -/
theorem claimC10_alternative_assertion (exec : String → ProcResult)
    (tw : TestWorlds) (part : AlternativeModel) (st : ExecState) :
    ((selectedAlternatives st.alternatives part).length ≤ 1 →
      ∀ m, (runAlternative exec tw part st).2 ≠ some (.assertionFailed m)) ∧
    (∀ k p, selectedAlternatives st.alternatives part = [k] →
      part.alternatives.get? k = some (.commands p) →
      runAlternative exec tw part st = runCommands exec tw p.commands 0 st) ∧
    (∀ k p, selectedAlternatives st.alternatives part = [k] →
      part.alternatives.get? k = some (.file p) →
      runAlternative exec tw part st = writeFile p st) ∧
    (2 ≤ (selectedAlternatives st.alternatives part).length →
      runAlternative exec tw part st =
        (st, some (.assertionFailed "More then one part selected."))) := by
  refine ⟨?_, ?_, ?_, ?_⟩
  · intro hle m
    unfold runAlternative
    rw [if_pos hle]
    cases hh : (selectedAlternatives st.alternatives part).head? with
    | none => simp
    | some k =>
        cases hg : part.alternatives.get? k with
        | none => simp [hg]
        | some nested =>
            cases nested with
            | commands p =>
                simp only [hg]
                exact runCommands_no_assertion exec tw p.commands 0 st m
            | file p => simp [hg, writeFile]
  · intro k p hsel hget
    unfold runAlternative
    rw [hsel]
    simp [hget]
  · intro k p hsel hget
    unfold runAlternative
    rw [hsel]
    simp [hget]
  · intro h2
    unfold runAlternative
    rw [if_neg (by omega)]

theorem claimC10_alternative_assertion_witness :
    (∀ m, (runAlternative (fun _ => ⟨0, "", ""⟩)
        (fun _ _ => ⟨fun _ => 0, fun _ => true⟩)
        { alternatives := [("foo", .commands { commands := [] })],
          required := false }
        { context := [], environment := [], alternatives := ["foo"] }).2 ≠
      some (.assertionFailed m)) ∧
    runAlternative (fun _ => ⟨0, "", ""⟩)
        (fun _ _ => ⟨fun _ => 0, fun _ => true⟩)
        { alternatives := [("foo", .commands { commands := [] })],
          required := false }
        { context := [], environment := [], alternatives := ["foo"] } =
      runCommands (fun _ => ⟨0, "", ""⟩)
        (fun _ _ => ⟨fun _ => 0, fun _ => true⟩) [] 0
        { context := [], environment := [], alternatives := ["foo"] } ∧
    runAlternative (fun _ => ⟨0, "", ""⟩)
        (fun _ _ => ⟨fun _ => 0, fun _ => true⟩)
        { alternatives := [("foo", .commands { commands := [] }),
                           ("bar", .commands { commands := [] })],
          required := false }
        { context := [], environment := [], alternatives := ["foo", "bar"] } =
      ({ context := [], environment := [], alternatives := ["foo", "bar"] },
        some (.assertionFailed "More then one part selected.")) := by
  refine ⟨?_, ?_, ?_⟩
  · exact (claimC10_alternative_assertion _ _ _ _).1 (by decide)
  · exact (claimC10_alternative_assertion _ _
      { alternatives := [("foo", .commands { commands := [] })],
        required := false }
      { context := [], environment := [], alternatives := ["foo"] }).2.1
      "foo" { commands := [] } rfl rfl
  · exact (claimC10_alternative_assertion _ _
      { alternatives := [("foo", .commands { commands := [] }),
                         ("bar", .commands { commands := [] })],
        required := false }
      { context := [], environment := [], alternatives := ["foo", "bar"] }).2.2.2
      (by decide)

/-- C2, demonstrating the divergence: for a non-required `AlternativePart`
whose declared keys have empty intersection with the chosen alternative set,
pre-flight validation raises an `InvalidAlternativesSelectedError` through
its `len(selected) != 1` branch (with the zero-selection nonsense message
"More then one alternative selected" over an empty set), although the
run-time dispatcher silently skips the part without executing any nested
part and without an error, exactly as the claim states. -/
theorem claimC2_nonrequired_zero_selection :
    validateAlternatives
      [.alternative { alternatives := [("foo", .commands { commands := [] }),
                                       ("bar", .commands { commands := [] })],
                      required := false }] ["bla"] =
      some (.invalidAlternatives
        "Part 1: More then one alternative selected: \x7b\x7d") ∧
    runAlternative (fun _ => ⟨0, "", ""⟩)
        (fun _ _ => ⟨fun _ => 0, fun _ => true⟩)
        { alternatives := [("foo", .commands { commands := [] }),
                           ("bar", .commands { commands := [] })],
          required := false }
        { context := [], environment := [], alternatives := ["bla"] } =
      ({ context := [], environment := [], alternatives := ["bla"] }, none) := by
  exact ⟨rfl, rfl⟩

/-- C1, demonstrating the divergence: the cleanup guard drains the stack but
never re-raises — `surfaced` is `none` for every run, so a run-time error is
logged and swallowed inside the guard instead of being propagated to the
caller of `run()`. Concretely, for a one-command tutorial whose command
exits 1 with expected status 0 and cleanup command `clean1`, the guard
drains `clean1` after the failure and `run()` returns normally with the
status-mismatch error only recorded as handled. -/
theorem claimC1_guard_swallows_error :
    (∀ (exec : String → ProcResult) (interactive : Bool)
       (body : ExecState → ExecState × Option RunError) (st : ExecState),
      (cleanupGuard exec interactive body st).surfaced = none) ∧
    runTutorial (fun _ => ⟨1, "", ""⟩) (fun _ _ _ => ⟨fun _ => 0, fun _ => true⟩)
        (fun _ => none) []
        { parts := [.commands { commands := [⟨[TItem.lit "cmd1"],
            { cleanup := [{ command := [TItem.lit "clean1"] }] }⟩] }] }
        [] [] false =
      { state := { context := [], environment := [],
                   cleanup := [{ command := [TItem.lit "clean1"] }],
                   alternatives := [],
                   trace := [.ran "cmd1" [], .ran "clean1" []] },
        surfaced := none,
        handled := some (.statusMismatch
          "cmd1 failed with return code 1 (expected: 0)."),
        prompted := false } := by
  exact ⟨fun exec i body st => rfl, rfl⟩

end StructuredTutorials
